import Mathlib

/-!
Shallow embedding of `src/packages/grafana-ui/src/components/Logs/Logs.tsx`:
the staged-rendering scheduler, duplicate aggregation and panel-controller
callbacks of the log-display component, together with theorems settling the
specification's claims about them.
-/

/-- Embeds `LogsDedupStrategy` from the data package: the dedup policies the
component distinguishes (`none | exact | numbers | signature`). -/
inductive LogsDedupStrategy where
  | none
  | exact
  | numbers
  | signature
deriving DecidableEq, Repr

/-- Embeds `LogsMetaKind` from the data package: the kind tag of a meta item
(`Number | String | LabelsMap`). -/
inductive LogsMetaKind where
  | Number
  | String
  | LabelsMap
deriving DecidableEq, Repr

/-- A meta item's value: a number, a plain string, or a labels map. -/
inductive MetaValue where
  | num (n : Nat)
  | text (s : String)
  | labelsMap (labels : List (String × String))
deriving DecidableEq, Repr

/-- Embeds one log row (`LogRowModel`): its raw content and the optional
duplicate count (`row.duplicates`) the dedup stage annotated it with. -/
structure LogRowModel where
  entry : String
  duplicates : Option Nat
deriving DecidableEq, Repr

/-- Embeds one meta item of `LogsModel.meta`: label, value and kind. -/
structure LogsMetaItem where
  label : String
  value : MetaValue
  kind : LogsMetaKind
deriving DecidableEq, Repr

/-- Embeds `LogsModel` as the component uses it: the ordered row list, the
optional meta-item list, and the `hasUniqueLabels` flag of a deduplicated
model. -/
structure LogsModel where
  rows : List LogRowModel
  meta : Option (List LogsMetaItem)
  hasUniqueLabels : Bool
deriving DecidableEq, Repr

/-- Embeds the props of `Logs` that the core logic reads: the raw data set,
the parallel deduplicated set, and the active dedup strategy (Logs.tsx lines
33-43). -/
structure Props where
  data : Option LogsModel
  dedupedData : Option LogsModel
  dedupStrategy : LogsDedupStrategy
deriving DecidableEq, Repr

/-- Embeds the component's `State` (Logs.tsx lines 54-59). -/
structure State where
  deferLogs : Bool
  renderAll : Bool
  showLabels : Bool
  showTime : Bool
deriving DecidableEq, Repr

/-- Embeds the initial state literal (Logs.tsx lines 65-70). -/
def initialState : State :=
  { deferLogs := true, renderAll := false, showLabels := false, showTime := true }

/-- Embeds `const PREVIEW_LIMIT = 100` (Logs.tsx line 19). -/
def PREVIEW_LIMIT : Nat := 100

/-- Embeds the reducer body of the dedup-count fold (Logs.tsx line 165):
`(sum, row) => (row.duplicates ? sum + row.duplicates : sum)`; a missing or
zero (falsy) duplicate count leaves the sum unchanged. -/
def dedupStep (sum : Nat) (row : LogRowModel) : Nat :=
  match row.duplicates with
  | Option.some d => if d ≠ 0 then sum + d else sum
  | Option.none => sum

/-- Embeds `rows.reduce((sum, row) => (row.duplicates ? sum + row.duplicates
: sum), 0)` (Logs.tsx lines 164-166). -/
def dedupCountOf (rows : List LogRowModel) : Nat :=
  rows.foldl dedupStep 0

/-- Embeds `showDuplicates = dedupStrategy !== LogsDedupStrategy.none &&
dedupCount > 0` (Logs.tsx line 167). -/
def showDuplicatesOf (strategy : LogsDedupStrategy) (rows : List LogRowModel) : Bool :=
  decide (strategy ≠ LogsDedupStrategy.none) && decide (0 < dedupCountOf rows)

/-- The dedup summary the spec calls `computeDedupSummary`'s result. -/
structure DedupSummary where
  dedupCount : Nat
  showDuplicates : Bool
deriving DecidableEq, Repr

/-- The spec's `computeDedupSummary` contract, embedded from the inline
computation in `render` (Logs.tsx lines 164-167). -/
def computeDedupSummary (rows : List LogRowModel) (strategy : LogsDedupStrategy) : DedupSummary :=
  { dedupCount := dedupCountOf rows, showDuplicates := showDuplicatesOf strategy rows }

/-- Embeds `const processedRows = dedupedData ? dedupedData.rows : []`
(Logs.tsx line 179). -/
def processedRowsOf (p : Props) : List LogRowModel :=
  match p.dedupedData with
  | Option.some dd => dd.rows
  | Option.none => []

/-- Embeds `const rowCount = data && data.rows ? data.rows.length : 0`
(Logs.tsx line 76). -/
def rowCountOf (p : Props) : Nat :=
  match p.data with
  | Option.some d => d.rows.length
  | Option.none => 0

/-- The render model handed to the presentation layer, as `render` assembles
it (Logs.tsx lines 141-294): the visible row window (first batch plus, when
`renderAll`, the remainder), the optional pending-rows placeholder count, the
meta-item list and whether it is rendered, and the dedup summary flags. -/
structure RenderModel where
  visibleRows : List LogRowModel
  placeholderCount : Option Nat
  metaItems : List LogsMetaItem
  metaRendered : Bool
  showDuplicates : Bool
  dedupCount : Nat
  hasData : Bool
  hasLabel : Bool
deriving DecidableEq, Repr

/-- Embeds `Logs.render` (Logs.tsx lines 141-294). Returns `none` when
`data` is absent (line 156-158, `return null`). `hasData` is line 162,
`hasLabel` line 163, `dedupCount` lines 164-166, `showDuplicates` line 167,
the meta list with the conditional "Dedup count" entry lines 168-176, the
processed rows and the two slices lines 179-181, the row window and the
placeholder lines 240-274, and the meta block's `hasData` guard line 229. -/
def render (p : Props) (s : State) : Option RenderModel :=
  match p.data with
  | Option.none => Option.none
  | Option.some data =>
    let hasData := decide (0 < data.rows.length)
    let hasLabel := hasData && (match p.dedupedData with
      | Option.some dd => dd.hasUniqueLabels
      | Option.none => false)
    let dedupCount := match p.dedupedData with
      | Option.some dd => dedupCountOf dd.rows
      | Option.none => 0
    let showDuplicates := decide (p.dedupStrategy ≠ LogsDedupStrategy.none) && decide (0 < dedupCount)
    let meta0 := match data.meta with
      | Option.some m => m
      | Option.none => []
    let meta := if p.dedupStrategy ≠ LogsDedupStrategy.none then
        meta0 ++ [{ label := "Dedup count", value := MetaValue.num dedupCount,
                    kind := LogsMetaKind.Number }]
      else meta0
    let processedRows := processedRowsOf p
    let firstRows := processedRows.take PREVIEW_LIMIT
    let lastRows := processedRows.drop PREVIEW_LIMIT
    let visibleRows :=
      (if hasData && !s.deferLogs then firstRows else []) ++
      (if hasData && !s.deferLogs && s.renderAll then lastRows else [])
    let placeholderCount :=
      if hasData && s.deferLogs then Option.some processedRows.length else Option.none
    Option.some
      { visibleRows := visibleRows
        placeholderCount := placeholderCount
        metaItems := meta
        metaRendered := hasData
        showDuplicates := showDuplicates
        dedupCount := dedupCount
        hasData := hasData
        hasLabel := hasLabel }

/-- The component instance: current props and state plus the two timer
handles. A pending defer-logs timer carries its delay and the `renderAll`
value captured when it was scheduled (its callback closes over both,
Logs.tsx line 79); a pending render-all timer carries its fixed delay. -/
structure LogsComponent where
  props : Props
  state : State
  deferLogsTimer : Option (Nat × Bool)
  renderAllTimer : Option Nat
deriving DecidableEq, Repr

/-- Embeds `componentDidMount` (Logs.tsx lines 72-81): with the initial
state, if `deferLogs` is set, compute the row count of the raw data, decide
`renderAll = rowCount <= PREVIEW_LIMIT * 2`, and schedule the defer-logs
timer with delay `rowCount`, capturing `renderAll`. -/
def componentDidMount (p : Props) : LogsComponent :=
  let s := initialState
  if s.deferLogs then
    let rowCount := rowCountOf p
    let renderAll := decide (rowCount ≤ PREVIEW_LIMIT * 2)
    { props := p, state := s, deferLogsTimer := Option.some (rowCount, renderAll),
      renderAllTimer := Option.none }
  else
    { props := p, state := s, deferLogsTimer := Option.none, renderAllTimer := Option.none }

/-- Embeds `componentDidUpdate` (Logs.tsx lines 83-88), run after every
state or props change: when the state just left `deferLogs` without
`renderAll`, schedule the render-all timer with fixed delay 2000. -/
def componentDidUpdate (prevState : State) (c : LogsComponent) : LogsComponent :=
  if prevState.deferLogs && !c.state.deferLogs && !c.state.renderAll then
    { c with renderAllTimer := Option.some 2000 }
  else c

/-- The defer-logs timer fires (Logs.tsx line 79): only possible while the
handle is pending; applies `setState({ deferLogs: false, renderAll })` with
the captured `renderAll`, consumes the handle, and runs
`componentDidUpdate`. A cancelled timer (handle `none`) cannot fire. -/
def fireDeferLogsTimer (c : LogsComponent) : LogsComponent :=
  match c.deferLogsTimer with
  | Option.none => c
  | Option.some (_, renderAll) =>
    let prev := c.state
    let c1 : LogsComponent :=
      { c with state := { c.state with deferLogs := false, renderAll := renderAll },
               deferLogsTimer := Option.none }
    componentDidUpdate prev c1

/-- The render-all timer fires (Logs.tsx line 86): only possible while the
handle is pending; applies `setState({ renderAll: true })`, consumes the
handle, and runs `componentDidUpdate`. -/
def fireRenderAllTimer (c : LogsComponent) : LogsComponent :=
  match c.renderAllTimer with
  | Option.none => c
  | Option.some _ =>
    let prev := c.state
    let c1 : LogsComponent :=
      { c with state := { c.state with renderAll := true },
               renderAllTimer := Option.none }
    componentDidUpdate prev c1

/-- Embeds `componentWillUnmount` (Logs.tsx lines 90-98): both pending
timers are cleared unconditionally. -/
def componentWillUnmount (c : LogsComponent) : LogsComponent :=
  { c with deferLogsTimer := Option.none, renderAllTimer := Option.none }

/-- A new data delivery: React updates the props and runs
`componentDidUpdate` with the unchanged state (the staged-rendering guard,
Logs.tsx line 85, reacts only to a state transition, so a props-only update
never schedules a timer). -/
def receiveProps (c : LogsComponent) (p : Props) : LogsComponent :=
  componentDidUpdate c.state { c with props := p }

/-- The two timer callbacks that can run against a component instance. -/
inductive TimerEvent where
  | deferLogsFires
  | renderAllFires
deriving DecidableEq, Repr

/-- Run one timer callback. -/
def applyTimerEvent (c : LogsComponent) : TimerEvent → LogsComponent
  | TimerEvent.deferLogsFires => fireDeferLogsTimer c
  | TimerEvent.renderAllFires => fireRenderAllTimer c

/-- Run a sequence of timer callbacks. -/
def runTimerEvents (c : LogsComponent) (evs : List TimerEvent) : LogsComponent :=
  evs.foldl applyTimerEvent c

/-- The spec's `Deferred` phase: `deferLogs` is still set. -/
def Deferred (c : LogsComponent) : Prop :=
  c.state.deferLogs = true

/-- The spec's `PartialVisible` phase: past `deferLogs`, not yet
`renderAll`. -/
def PartialVisible (c : LogsComponent) : Prop :=
  c.state.deferLogs = false ∧ c.state.renderAll = false

/-- The spec's `FullyVisible` phase: past `deferLogs` with `renderAll`. -/
def FullyVisible (c : LogsComponent) : Prop :=
  c.state.deferLogs = false ∧ c.state.renderAll = true

/-- Embeds `onChangeDedup` (Logs.tsx lines 100-106) as the list of values
passed to `onDedupStrategyChange`: the active strategy toggles off to
`none`, any other candidate is adopted; either way exactly one call. -/
def onChangeDedup (p : Props) (dedup : LogsDedupStrategy) : List LogsDedupStrategy :=
  if p.dedupStrategy = dedup then [LogsDedupStrategy.none] else [dedup]

/-- Modelled from the spec: the `LogLevel` enumeration lives in the external
data package, whose source is not among these files; the spec says level
names map to "a validated log-level value". -/
inductive LogLevel where
  | critical
  | warning
  | error
  | info
  | debug
  | trace
  | unknown
deriving DecidableEq, Repr

/-- Modelled from the spec: the name-to-value lookup `LogLevel[level]`
performed at Logs.tsx line 123 on the external enumeration; a recognized
level name yields its value, an unrecognized name has no entry and the
lookup yields no value (JavaScript `undefined`). -/
def logLevelFromName (name : String) : Option LogLevel :=
  if name = "critical" then Option.some LogLevel.critical
  else if name = "warning" then Option.some LogLevel.warning
  else if name = "error" then Option.some LogLevel.error
  else if name = "info" then Option.some LogLevel.info
  else if name = "debug" then Option.some LogLevel.debug
  else if name = "trace" then Option.some LogLevel.trace
  else if name = "unknown" then Option.some LogLevel.unknown
  else Option.none

/-- Embeds `onToggleLogLevel` (Logs.tsx lines 122-125) as the list forwarded
to the external visibility owner: `hiddenRawLevels.map(level =>
LogLevel[level as LogLevel])`. -/
def onToggleLogLevel (hiddenRawLevels : List String) : List (Option LogLevel) :=
  hiddenRawLevels.map logLevelFromName

/-- Props with both data sets present, as delivered by the producer. -/
def logsProps (d dd : LogsModel) (strategy : LogsDedupStrategy) : Props :=
  { data := Option.some d, dedupedData := Option.some dd, dedupStrategy := strategy }

/-- A data set carrying a given row list. -/
def mkLogsModel (rs : List LogRowModel) (meta0 : Option (List LogsMetaItem)) (u : Bool) : LogsModel :=
  { rows := rs, meta := meta0, hasUniqueLabels := u }

/-- Props whose deduplicated set is absent. -/
def noDedupProps (d : LogsModel) (strategy : LogsDedupStrategy) : Props :=
  { data := Option.some d, dedupedData := Option.none, dedupStrategy := strategy }

/-- A log row with no duplicate count. -/
def sampleRow : LogRowModel := { entry := "", duplicates := Option.none }

/-- The empty delivered data set. -/
def emptyRowsModel : LogsModel := mkLogsModel [] Option.none false

/-- Props delivering the empty row set raw and deduplicated, with a
non-`none` strategy. -/
def emptyRowsProps : Props := logsProps emptyRowsModel emptyRowsModel LogsDedupStrategy.exact

/-- A row set of 201 rows, just over twice the preview limit. -/
def bigRowSet : List LogRowModel := List.replicate 201 sampleRow

/-- The 201-row data set. -/
def bigModel : LogsModel := mkLogsModel bigRowSet Option.none false

/-- A 5-row data set, well under twice the preview limit. -/
def smallModel : LogsModel := mkLogsModel (List.replicate 5 sampleRow) Option.none false

/-- Props delivering the 5-row set raw and deduplicated. -/
def smallProps : Props := logsProps smallModel smallModel LogsDedupStrategy.none

/-- A one-row data set. -/
def oneRowModel : LogsModel := mkLogsModel [sampleRow] Option.none false

/-- A two-row data set. -/
def twoRowModel : LogsModel := mkLogsModel [sampleRow, sampleRow] Option.none false

/-- Props with one raw row and two deduplicated rows. -/
def deferredProps : Props := logsProps oneRowModel twoRowModel LogsDedupStrategy.none

/-- One step of the dedup-count fold adds the row's duplicate count,
a missing count contributing 0. -/
theorem dedupStep_eq (sum : Nat) (row : LogRowModel) :
    dedupStep sum row = sum + row.duplicates.getD 0 := by
  cases h : row.duplicates with
  | none => simp [dedupStep, h]
  | some d =>
    simp only [dedupStep, h, Option.getD_some]
    by_cases hd : d = 0 <;> simp [hd]

/-- The dedup-count fold from any accumulator is that accumulator plus the
sum of the per-row duplicate counts. -/
theorem foldl_dedupStep (rows : List LogRowModel) (acc : Nat) :
    rows.foldl dedupStep acc = acc + (rows.map (fun row => row.duplicates.getD 0)).sum := by
  induction rows generalizing acc with
  | nil => simp
  | cons row rows ih =>
    rw [List.foldl_cons, ih, dedupStep_eq, List.map_cons, List.sum_cons]
    omega

/-- The dedup count of a row list is the sum of the per-row duplicate
counts, a missing count contributing 0. -/
theorem dedupCountOf_eq_sum (rows : List LogRowModel) :
    dedupCountOf rows = (rows.map (fun row => row.duplicates.getD 0)).sum := by
  rw [dedupCountOf, foldl_dedupStep, Nat.zero_add]

/-- Running `componentDidUpdate` never touches the defer-logs timer. -/
theorem componentDidUpdate_deferLogsTimer (prev : State) (c : LogsComponent) :
    (componentDidUpdate prev c).deferLogsTimer = c.deferLogsTimer := by
  unfold componentDidUpdate
  split <;> rfl

/-- Running `componentDidUpdate` never touches the state. -/
theorem componentDidUpdate_state (prev : State) (c : LogsComponent) :
    (componentDidUpdate prev c).state = c.state := by
  unfold componentDidUpdate
  split <;> rfl

/-- A data delivery leaves the defer-logs timer untouched. -/
theorem receiveProps_deferLogsTimer (c : LogsComponent) (q : Props) :
    (receiveProps c q).deferLogsTimer = c.deferLogsTimer := by
  rw [receiveProps, componentDidUpdate_deferLogsTimer]

/-- A data delivery leaves the state untouched. -/
theorem receiveProps_state (c : LogsComponent) (q : Props) :
    (receiveProps c q).state = c.state := by
  rw [receiveProps, componentDidUpdate_state]

/-- Any sequence of data deliveries leaves the defer-logs timer untouched. -/
theorem foldl_receiveProps_deferLogsTimer (l : List Props) (c : LogsComponent) :
    (l.foldl receiveProps c).deferLogsTimer = c.deferLogsTimer := by
  induction l generalizing c with
  | nil => rfl
  | cons q l ih => rw [List.foldl_cons, ih, receiveProps_deferLogsTimer]

/-- Any sequence of data deliveries leaves the state untouched. -/
theorem foldl_receiveProps_state (l : List Props) (c : LogsComponent) :
    (l.foldl receiveProps c).state = c.state := by
  induction l generalizing c with
  | nil => rfl
  | cons q l ih => rw [List.foldl_cons, ih, receiveProps_state]

/-- With both handles cleared, a firing timer callback is impossible: either
event leaves the component unchanged. -/
theorem applyTimerEvent_of_noTimers (c : LogsComponent)
    (h1 : c.deferLogsTimer = Option.none) (h2 : c.renderAllTimer = Option.none)
    (ev : TimerEvent) : applyTimerEvent c ev = c := by
  cases ev <;> simp [applyTimerEvent, fireDeferLogsTimer, fireRenderAllTimer, h1, h2]

/-- With both handles cleared, no sequence of timer callbacks changes the
component. -/
theorem runTimerEvents_of_noTimers (c : LogsComponent)
    (h1 : c.deferLogsTimer = Option.none) (h2 : c.renderAllTimer = Option.none)
    (evs : List TimerEvent) : runTimerEvents c evs = c := by
  induction evs with
  | nil => rfl
  | cons ev evs ih =>
    rw [runTimerEvents, List.foldl_cons, applyTimerEvent_of_noTimers c h1 h2 ev]
    exact ih

/-- Claim C1: for every deduplicated row set, `computeDedupSummary` returns a
dedup count equal to the sum of the per-row duplicate counts (a missing count
contributing 0), `showDuplicates` holds exactly when the strategy is not
`none` and the count is positive, and the empty row set yields count 0 and
`showDuplicates` false. -/
theorem computeDedupSummary_correct (rows : List LogRowModel) (strategy : LogsDedupStrategy) :
    (computeDedupSummary rows strategy).dedupCount
        = (rows.map (fun row => row.duplicates.getD 0)).sum
    ∧ ((computeDedupSummary rows strategy).showDuplicates = true ↔
        (strategy ≠ LogsDedupStrategy.none ∧ 0 < (computeDedupSummary rows strategy).dedupCount))
    ∧ (computeDedupSummary [] strategy).dedupCount = 0
    ∧ (computeDedupSummary [] strategy).showDuplicates = false := by
  refine ⟨dedupCountOf_eq_sum rows, ?_, rfl, ?_⟩
  · simp [computeDedupSummary, showDuplicatesOf]
  · simp [computeDedupSummary, showDuplicatesOf, dedupCountOf]

/-- Claim C2: for a row set of more than `PREVIEW_LIMIT * 2` rows at
controller start, the controller is first `Deferred`; when the reveal timer
fires it is `PartialVisible` with exactly the first `PREVIEW_LIMIT` rows in
the visible window and the complete timer armed with the fixed delay 2000;
when the complete timer fires it is `FullyVisible` with all rows visible in
original order. -/
theorem stagedRendering_largeRowSet (d dd : LogsModel) (strategy : LogsDedupStrategy)
    (hsame : dd.rows = d.rows)
    (hbig : PREVIEW_LIMIT * 2 < d.rows.length) :
    Deferred (componentDidMount (logsProps d dd strategy))
    ∧ PartialVisible (fireDeferLogsTimer (componentDidMount (logsProps d dd strategy)))
    ∧ (fireDeferLogsTimer (componentDidMount (logsProps d dd strategy))).renderAllTimer
        = Option.some 2000
    ∧ (render (logsProps d dd strategy)
          (fireDeferLogsTimer (componentDidMount (logsProps d dd strategy))).state).map
        (fun m => m.visibleRows)
        = Option.some (d.rows.take PREVIEW_LIMIT)
    ∧ (d.rows.take PREVIEW_LIMIT).length = PREVIEW_LIMIT
    ∧ FullyVisible
        (fireRenderAllTimer (fireDeferLogsTimer (componentDidMount (logsProps d dd strategy))))
    ∧ (render (logsProps d dd strategy)
          (fireRenderAllTimer
            (fireDeferLogsTimer (componentDidMount (logsProps d dd strategy)))).state).map
        (fun m => m.visibleRows)
        = Option.some d.rows := by
  have hd : decide (rowCountOf (logsProps d dd strategy) ≤ PREVIEW_LIMIT * 2) = false := by
    simp only [rowCountOf, logsProps, decide_eq_false_iff_not, not_le]
    exact hbig
  have hpos : decide (0 < d.rows.length) = true := by
    simp only [decide_eq_true_eq]
    omega
  have e1 : fireDeferLogsTimer (componentDidMount (logsProps d dd strategy))
      = { props := logsProps d dd strategy,
          state := { deferLogs := false, renderAll := false, showLabels := false,
                     showTime := true },
          deferLogsTimer := Option.none, renderAllTimer := Option.some 2000 } := by
    simp [componentDidMount, fireDeferLogsTimer, componentDidUpdate, initialState, hd]
  have e2 : fireRenderAllTimer (fireDeferLogsTimer (componentDidMount (logsProps d dd strategy)))
      = { props := logsProps d dd strategy,
          state := { deferLogs := false, renderAll := true, showLabels := false,
                     showTime := true },
          deferLogsTimer := Option.none, renderAllTimer := Option.none } := by
    rw [e1]
    simp [fireRenderAllTimer, componentDidUpdate]
  refine ⟨rfl, ?_, ?_, ?_, ?_, ?_, ?_⟩
  · rw [e1]
    exact ⟨rfl, rfl⟩
  · rw [e1]
  · rw [e1]
    simp [render, logsProps, processedRowsOf, hpos, hsame]
  · rw [List.length_take]
    omega
  · rw [e2]
    exact ⟨rfl, rfl⟩
  · rw [e2]
    simp [render, logsProps, processedRowsOf, hpos, hsame]

/-- Claim C2 witness: the 201-row set delivered raw and deduplicated runs the
staged schedule Deferred, PartialVisible with a 100-row window and an armed
2000-delay complete timer, then FullyVisible with all 201 rows. -/
theorem stagedRendering_largeRowSet_witness :
    Deferred (componentDidMount (logsProps bigModel bigModel LogsDedupStrategy.exact))
    ∧ PartialVisible
        (fireDeferLogsTimer
          (componentDidMount (logsProps bigModel bigModel LogsDedupStrategy.exact)))
    ∧ (fireDeferLogsTimer
        (componentDidMount (logsProps bigModel bigModel LogsDedupStrategy.exact))).renderAllTimer
        = Option.some 2000
    ∧ (render (logsProps bigModel bigModel LogsDedupStrategy.exact)
          (fireDeferLogsTimer
            (componentDidMount (logsProps bigModel bigModel LogsDedupStrategy.exact))).state).map
        (fun m => m.visibleRows)
        = Option.some (bigModel.rows.take PREVIEW_LIMIT)
    ∧ (bigModel.rows.take PREVIEW_LIMIT).length = PREVIEW_LIMIT
    ∧ FullyVisible
        (fireRenderAllTimer
          (fireDeferLogsTimer
            (componentDidMount (logsProps bigModel bigModel LogsDedupStrategy.exact))))
    ∧ (render (logsProps bigModel bigModel LogsDedupStrategy.exact)
          (fireRenderAllTimer
            (fireDeferLogsTimer
              (componentDidMount (logsProps bigModel bigModel LogsDedupStrategy.exact)))).state).map
        (fun m => m.visibleRows)
        = Option.some bigModel.rows :=
  stagedRendering_largeRowSet bigModel bigModel LogsDedupStrategy.exact rfl
    (by norm_num [bigModel, mkLogsModel, bigRowSet, PREVIEW_LIMIT])

/-- Claim C3: for a row set of at most `PREVIEW_LIMIT * 2` rows at controller
start, the controller goes from `Deferred` straight to `FullyVisible` when
the reveal timer fires, is never `PartialVisible`, and never arms the
complete timer. -/
theorem stagedRendering_smallRowSet (p : Props) (hsmall : rowCountOf p ≤ PREVIEW_LIMIT * 2) :
    Deferred (componentDidMount p)
    ∧ ¬ PartialVisible (componentDidMount p)
    ∧ FullyVisible (fireDeferLogsTimer (componentDidMount p))
    ∧ ¬ PartialVisible (fireDeferLogsTimer (componentDidMount p))
    ∧ (fireDeferLogsTimer (componentDidMount p)).renderAllTimer = Option.none := by
  have hd : decide (rowCountOf p ≤ PREVIEW_LIMIT * 2) = true := decide_eq_true hsmall
  refine ⟨rfl, ?_, ?_, ?_, ?_⟩
  · simp [PartialVisible, componentDidMount, initialState]
  · constructor <;>
      simp [componentDidMount, fireDeferLogsTimer, componentDidUpdate, hd, initialState]
  · simp [PartialVisible, componentDidMount, fireDeferLogsTimer, componentDidUpdate, hd,
      initialState]
  · simp [componentDidMount, fireDeferLogsTimer, componentDidUpdate, hd, initialState]

/-- Claim C3 witness: the 5-row set goes from Deferred straight to
FullyVisible with no complete timer. -/
theorem stagedRendering_smallRowSet_witness :
    Deferred (componentDidMount smallProps)
    ∧ ¬ PartialVisible (componentDidMount smallProps)
    ∧ FullyVisible (fireDeferLogsTimer (componentDidMount smallProps))
    ∧ ¬ PartialVisible (fireDeferLogsTimer (componentDidMount smallProps))
    ∧ (fireDeferLogsTimer (componentDidMount smallProps)).renderAllTimer = Option.none :=
  stagedRendering_smallRowSet smallProps (by decide)

/-- Claim C4 counterexample: right after mounting on a delivered but empty
row set the controller is deferred, the visible window is empty, yet no
pending-rows placeholder is rendered (the placeholder is gated on `hasData`,
Logs.tsx line 273), contradicting the claim that every reachable deferred
state shows the placeholder. -/
theorem deferredPlaceholder_counterexample :
    Deferred (componentDidMount emptyRowsProps)
    ∧ (render emptyRowsProps (componentDidMount emptyRowsProps).state).map
        (fun m => (m.visibleRows, m.placeholderCount))
        = Option.some ([], Option.none) :=
  ⟨rfl, rfl⟩

/-- Claim C4 as amended: in every deferred state the visible row window is
empty regardless of `renderAll`, and the placeholder carrying the processed
row count is rendered exactly when the raw row set is nonempty. -/
theorem deferredWindow_empty_amended (p : Props) (s : State) (d : LogsModel)
    (hdata : p.data = Option.some d) (hdefer : s.deferLogs = true) :
    (render p s).map (fun m => m.visibleRows) = Option.some []
    ∧ (0 < d.rows.length →
        (render p s).map (fun m => m.placeholderCount)
          = Option.some (Option.some (processedRowsOf p).length))
    ∧ (d.rows.length = 0 →
        (render p s).map (fun m => m.placeholderCount) = Option.some Option.none) := by
  refine ⟨?_, ?_, ?_⟩
  · simp [render, hdata, hdefer]
  · intro hpos
    simp [render, hdata, hdefer, hpos]
  · intro hz
    simp [render, hdata, hdefer, hz]

/-- Claim C4 witness: with one raw row and two processed rows, the deferred
initial state renders an empty window and a placeholder counting the two
processed rows. -/
theorem deferredWindow_empty_amended_witness :
    (render deferredProps initialState).map (fun m => m.visibleRows) = Option.some []
    ∧ (0 < oneRowModel.rows.length →
        (render deferredProps initialState).map (fun m => m.placeholderCount)
          = Option.some (Option.some (processedRowsOf deferredProps).length))
    ∧ (oneRowModel.rows.length = 0 →
        (render deferredProps initialState).map (fun m => m.placeholderCount)
          = Option.some Option.none) :=
  deferredWindow_empty_amended deferredProps initialState oneRowModel rfl rfl

/-- Claim C5: tearing the controller down before any timer fires clears both
timer handles (clearing is unconditional for any component), and no timer
callback sequence afterwards changes anything: the state stays the initial
deferred state forever. -/
theorem teardown_cancels_timers (p : Props) (evs : List TimerEvent) :
    (componentWillUnmount (componentDidMount p)).deferLogsTimer = Option.none
    ∧ (componentWillUnmount (componentDidMount p)).renderAllTimer = Option.none
    ∧ runTimerEvents (componentWillUnmount (componentDidMount p)) evs
        = componentWillUnmount (componentDidMount p)
    ∧ (runTimerEvents (componentWillUnmount (componentDidMount p)) evs).state = initialState
    ∧ (∀ c : LogsComponent, (componentWillUnmount c).deferLogsTimer = Option.none
        ∧ (componentWillUnmount c).renderAllTimer = Option.none) := by
  refine ⟨rfl, rfl, runTimerEvents_of_noTimers _ rfl rfl evs, ?_, fun c => ⟨rfl, rfl⟩⟩
  rw [runTimerEvents_of_noTimers _ rfl rfl evs]
  rfl

/-- Claim C6: `onChangeDedup` notifies the external owner exactly once:
with `none` when the candidate equals the active strategy, with the
candidate otherwise. -/
theorem onChangeDedup_notifies_once (p : Props) (dedup : LogsDedupStrategy) :
    (onChangeDedup p dedup).length = 1
    ∧ (p.dedupStrategy = dedup → onChangeDedup p dedup = [LogsDedupStrategy.none])
    ∧ (p.dedupStrategy ≠ dedup → onChangeDedup p dedup = [dedup]) := by
  unfold onChangeDedup
  by_cases h : p.dedupStrategy = dedup <;> simp [h]

/-- Claim C7 counterexample: the unrecognized level name "bogus" does not
fail loudly; its lookup yields no value and that undefined entry is
forwarded to the visibility owner. -/
theorem onToggleLogLevel_unrecognized_counterexample :
    onToggleLogLevel ["bogus"] = [Option.none]
    ∧ Option.none ∈ onToggleLogLevel ["bogus"] := by
  constructor
  · rfl
  · simp [onToggleLogLevel, logLevelFromName]

/-- Claim C7 as amended: `onToggleLogLevel` forwards one entry per input
name (nothing is dropped), each entry being the enumeration lookup of its
name, recognized names yielding their validated value and unrecognized
names a silently forwarded undefined entry. -/
theorem onToggleLogLevel_silent_amended (names : List String) (name : String)
    (h : name ∈ names) :
    (onToggleLogLevel names).length = names.length
    ∧ logLevelFromName name ∈ onToggleLogLevel names := by
  refine ⟨List.length_map names logLevelFromName, ?_⟩
  exact List.mem_map_of_mem logLevelFromName h

/-- Claim C7 witness: forwarding the recognized name "error" among the pair
["error", "bogus"] keeps the list length and carries the validated value. -/
theorem onToggleLogLevel_silent_amended_witness :
    (onToggleLogLevel ["error", "bogus"]).length = (["error", "bogus"] : List String).length
    ∧ logLevelFromName "error" ∈ onToggleLogLevel ["error", "bogus"] :=
  onToggleLogLevel_silent_amended ["error", "bogus"] "error" (by simp)

/-- Claim C8: the synthesized "Dedup count" meta entry is appended to the
meta-item list exactly when the strategy is not `none`, whatever the dedup
count's value (the row set may be empty), and never when the strategy is
`none`. -/
theorem dedupMetaEntry_appended_iff_strategy (p : Props) (s : State) (d : LogsModel)
    (hdata : p.data = Option.some d) :
    (p.dedupStrategy ≠ LogsDedupStrategy.none →
        (render p s).map (fun m => m.metaItems)
          = Option.some ((d.meta.getD []) ++
              [{ label := "Dedup count",
                 value := MetaValue.num (dedupCountOf (processedRowsOf p)),
                 kind := LogsMetaKind.Number }]))
    ∧ (p.dedupStrategy = LogsDedupStrategy.none →
        (render p s).map (fun m => m.metaItems) = Option.some (d.meta.getD [])) := by
  constructor <;> intro h <;>
    rcases hdd : p.dedupedData with _ | dd <;> rcases hm : d.meta with _ | ms <;>
    simp [render, hdata, h, hdd, hm, processedRowsOf, dedupCountOf]

/-- Claim C8 witness: the empty row set with strategy `exact` still gets the
"Dedup count" entry (value 0) appended, and would get none under strategy
`none`. -/
theorem dedupMetaEntry_appended_iff_strategy_witness :
    (emptyRowsProps.dedupStrategy ≠ LogsDedupStrategy.none →
        (render emptyRowsProps initialState).map (fun m => m.metaItems)
          = Option.some ((emptyRowsModel.meta.getD []) ++
              [{ label := "Dedup count",
                 value := MetaValue.num (dedupCountOf (processedRowsOf emptyRowsProps)),
                 kind := LogsMetaKind.Number }]))
    ∧ (emptyRowsProps.dedupStrategy = LogsDedupStrategy.none →
        (render emptyRowsProps initialState).map (fun m => m.metaItems)
          = Option.some (emptyRowsModel.meta.getD [])) :=
  dedupMetaEntry_appended_iff_strategy emptyRowsProps initialState emptyRowsModel rfl

/-- Claim C9: the reveal timer is armed at mount with delay equal to the raw
row count known at controller start, capturing the eligibility flag; data
deliveries never touch it (so it is neither re-armed nor recomputed while
deferred and the component stays deferred); the complete timer's firing
never touches it; its own firing only consumes it; and only unmount clears
it otherwise. -/
theorem revealTimer_fixed_at_mount (p : Props) (deliveries : List Props) :
    (componentDidMount p).deferLogsTimer
        = Option.some (rowCountOf p, decide (rowCountOf p ≤ PREVIEW_LIMIT * 2))
    ∧ (deliveries.foldl receiveProps (componentDidMount p)).deferLogsTimer
        = Option.some (rowCountOf p, decide (rowCountOf p ≤ PREVIEW_LIMIT * 2))
    ∧ Deferred (deliveries.foldl receiveProps (componentDidMount p))
    ∧ (∀ c q, (receiveProps c q).deferLogsTimer = c.deferLogsTimer)
    ∧ (∀ c, (fireRenderAllTimer c).deferLogsTimer = c.deferLogsTimer)
    ∧ (∀ c, (fireDeferLogsTimer c).deferLogsTimer = Option.none
          ∨ (fireDeferLogsTimer c).deferLogsTimer = c.deferLogsTimer)
    ∧ (∀ c, (componentWillUnmount c).deferLogsTimer = Option.none) := by
  refine ⟨?_, ?_, ?_, receiveProps_deferLogsTimer, ?_, ?_, fun c => rfl⟩
  · rfl
  · rw [foldl_receiveProps_deferLogsTimer]
    rfl
  · rw [Deferred, foldl_receiveProps_state]
    rfl
  · intro c
    cases h : c.renderAllTimer with
    | none => simp [fireRenderAllTimer, h]
    | some t => simp [fireRenderAllTimer, h, componentDidUpdate_deferLogsTimer]
  · intro c
    cases h : c.deferLogsTimer with
    | none => exact Or.inr (by simp [fireDeferLogsTimer, h])
    | some tb =>
      obtain ⟨t, b⟩ := tb
      exact Or.inl (by simp [fireDeferLogsTimer, h, componentDidUpdate_deferLogsTimer])

/-- Claim C10: the reveal delay is the raw data row count, while the visible
window, the placeholder count and the dedup count come from the
deduplicated set: with `dedupedData` absent the window is empty and the
dedup count 0 in every state, and a deferred state's placeholder counts 0
pending rows, even though the raw rows are nonempty and set the delay. -/
theorem rawCount_delay_dedupedRows_window (d : LogsModel) (strategy : LogsDedupStrategy)
    (s : State) (hne : 0 < d.rows.length) :
    (componentDidMount (noDedupProps d strategy)).deferLogsTimer
        = Option.some (d.rows.length, decide (d.rows.length ≤ PREVIEW_LIMIT * 2))
    ∧ (render (noDedupProps d strategy) s).map (fun m => (m.visibleRows, m.dedupCount))
        = Option.some ([], 0)
    ∧ (s.deferLogs = true →
        (render (noDedupProps d strategy) s).map (fun m => m.placeholderCount)
          = Option.some (Option.some 0)) := by
  refine ⟨rfl, ?_, ?_⟩
  · simp [render, noDedupProps, processedRowsOf]
  · intro hdefer
    simp [render, noDedupProps, processedRowsOf, hne, hdefer]

/-- Claim C10 witness: one raw row and no deduplicated set give a reveal
delay of 1, an empty window with dedup count 0, and a deferred placeholder
of 0 pending rows. -/
theorem rawCount_delay_dedupedRows_window_witness :
    (componentDidMount (noDedupProps oneRowModel LogsDedupStrategy.none)).deferLogsTimer
        = Option.some (oneRowModel.rows.length,
            decide (oneRowModel.rows.length ≤ PREVIEW_LIMIT * 2))
    ∧ (render (noDedupProps oneRowModel LogsDedupStrategy.none) initialState).map
        (fun m => (m.visibleRows, m.dedupCount))
        = Option.some ([], 0)
    ∧ (initialState.deferLogs = true →
        (render (noDedupProps oneRowModel LogsDedupStrategy.none) initialState).map
          (fun m => m.placeholderCount)
          = Option.some (Option.some 0)) :=
  rawCount_delay_dedupedRows_window oneRowModel LogsDedupStrategy.none initialState (by decide)
